import Mathlib

/-!
Verification development for the `stash-media-stack` watcher/worker pair
(`scripts/stash_watcher/stash_worker.py` and
`scripts/stash_watcher/stash_watcher.py`).

The Python code is shallowly embedded: pure path/string manipulation becomes
Lean functions on `String`/`List Char`; filesystem and remote-server effects
become explicit parameters (predicates describing the filesystem, oracles
describing remote answers) and explicit action traces; exceptions become
`Option`/`Except`-style results.
-/

/-- Python `str(x)` on a value that is either a path-like string or `None`
(`str(None) = "None"`).  Used for `paths = list(map(str, paths))` in
`stash_worker.main` (line 424), where the list may contain `None` entries
coming from `get_closest_parent_directory`. -/
def pyStr : Option String → String
  | some s => s
  | none => "None"

/-- One step of Python `str.replace(old, new)` on character lists, with fuel.
Replaces every non-overlapping occurrence of `old` left to right.  The fuel is
only a termination device: each step consumes at least one character, so
`fuel = s.length` suffices and the fuel-exhaustion branch returns the suffix
unchanged (it is never reached on the fuel used by `pyReplace`). -/
def pyReplaceFuel (old new : List Char) : Nat → List Char → List Char
  | 0, s => s
  | fuel + 1, s =>
    match s with
    | [] => []
    | c :: rest =>
      if old ≠ [] ∧ old.isPrefixOf (c :: rest) then
        new ++ pyReplaceFuel old new fuel (List.drop old.length (c :: rest))
      else
        c :: pyReplaceFuel old new fuel rest

/-- Python `s.replace(old, new)` (all non-overlapping occurrences, left to
right; for the degenerate `old = ""` this model returns `s` unchanged — the
mutation-table keys used with it are nonempty path prefixes). -/
def pyReplace (s old new : String) : String :=
  String.mk (pyReplaceFuel old.toList new.toList (s.toList.length + 1) s.toList)

/-- Split a character list on `'/'` (helper for the `pathlib.Path` component
view). -/
def splitSlash : List Char → List (List Char)
  | [] => [[]]
  | c :: rest =>
    let r := splitSlash rest
    if c = '/' then [] :: r
    else
      match r with
      | [] => [[c]]
      | g :: gs => (c :: g) :: gs

/-- Embeds `pathlib.Path(p).parent` for POSIX-style path strings: drop the last
component; the parent of a root or single-component relative path is `"/"`
or `"."` respectively. -/
def pathParent (p : String) : String :=
  let comps := (splitSlash p.toList).filter (fun g => g ≠ [])
  let isAbs := p.toList.head? = some '/'
  match comps.dropLast with
  | [] =>
    if comps = [] then (if isAbs then "/" else ".")
    else (if isAbs then "/" else ".")
  | init =>
    (if isAbs then "/" else "") ++ String.intercalate "/" (init.map String.mk)

/-- Embeds `get_closest_parent_directory` (stash_worker.py lines 365–370): a
directory maps to itself, a file to its parent, anything else falls off the
end of the function and yields Python `None`.  The ambient filesystem is the
pair of predicates `isDir`/`isFile`. -/
def getClosestParentDirectory (isDir isFile : String → Bool) (p : String) :
    Option String :=
  if isDir p then some p
  else if isFile p then some (pathParent p)
  else none

/-- Embeds the scan-path computation of `stash_worker.main` (lines 412–424)
exactly as written, including line 413 (`paths = None`), which overwrites the
incoming `paths` argument before it is used:

```python
def main(paths=None):
    paths = None
    if paths is None:
        paths = []
    paths = list(map(Path, paths))
    paths += [get_closest_parent_directory(path) for path in paths]
    paths += [str(path).replace(old, new)
              for path in paths for old, new in path_mutation.items()]
    paths = list(map(str, paths))
```

`Path` construction is modelled as the identity on (already normalised) path
strings.  The result is the `paths` list handed to `stash.metadata_scan`. -/
def mainScanPaths (isDir isFile : String → Bool)
    (pathMutation : List (String × String)) (pathsArg : Option (List String)) :
    List String :=
  let paths0 : Option (List String) := none
  let paths1 : List (Option String) :=
    (match paths0 with
     | none => ([] : List String)
     | some ps => ps).map some
  let paths2 :=
    paths1 ++ paths1.map (fun p => getClosestParentDirectory isDir isFile (pyStr p))
  let paths3 :=
    paths2 ++ paths2.flatMap
      (fun p => pathMutation.map (fun m => some (pyReplace (pyStr p) m.1 m.2)))
  paths3.map pyStr

/-- The same computation as `mainScanPaths` but without the overwriting
`paths = None` of line 413, i.e. the behaviour documented in spec §4.4 for
`RescanTrigger.run` (file → parent directory, then additive prefix
rewriting).  Kept separate so the divergence between the code and the
documented intent can be stated as a theorem. -/
def mainScanPathsIntended (isDir isFile : String → Bool)
    (pathMutation : List (String × String)) (pathsArg : Option (List String)) :
    List String :=
  let paths1 : List (Option String) :=
    (match pathsArg with
     | none => ([] : List String)
     | some ps => ps).map some
  let paths2 :=
    paths1 ++ paths1.map (fun p => getClosestParentDirectory isDir isFile (pyStr p))
  let paths3 :=
    paths2 ++ paths2.flatMap
      (fun p => pathMutation.map (fun m => some (pyReplace (pyStr p) m.1 m.2)))
  paths3.map pyStr

/-- Filesystem for the concrete rescan scenario of spec §8: `/lib` and
`/lib/movies` are directories. -/
def c1IsDir (p : String) : Bool :=
  p = "/lib" || p = "/lib/movies"

/-- Filesystem for the concrete rescan scenario of spec §8:
`/lib/movies/foo.mp4` is a file. -/
def c1IsFile (p : String) : Bool :=
  p = "/lib/movies/foo.mp4"

/-- C2: for every incoming `paths` argument (and every filesystem and
path-mutation table), `stash_worker.main` computes an empty scan-path list:
line 413 (`paths = None`) discards the argument, so the remote
`metadata_scan` call always receives `paths=[]`, i.e. a full-library scan. -/
theorem mainScanPaths_always_empty (isDir isFile : String → Bool)
    (pathMutation : List (String × String)) (pathsArg : Option (List String)) :
    mainScanPaths isDir isFile pathMutation pathsArg = [] := by
  rfl

/-- C1: at the spec's concrete input — `main(["/lib/movies/foo.mp4"])` with
mutation table `{"/lib": "/mnt/lib"}` — the code produces the empty scan
candidate list (so neither `/lib/movies` nor `/mnt/lib/movies` is passed to
the scan API), while the spec-documented computation (the same code without
the overwriting `paths = None` of line 413) produces a list containing both.
This exhibits line 413 as the point where the code deviates from its
documented intent. -/
theorem mainScanPaths_c1_bug :
    mainScanPaths c1IsDir c1IsFile [("/lib", "/mnt/lib")]
        (some ["/lib/movies/foo.mp4"]) = [] ∧
    "/lib/movies" ∉ mainScanPaths c1IsDir c1IsFile [("/lib", "/mnt/lib")]
        (some ["/lib/movies/foo.mp4"]) ∧
    "/mnt/lib/movies" ∉ mainScanPaths c1IsDir c1IsFile [("/lib", "/mnt/lib")]
        (some ["/lib/movies/foo.mp4"]) ∧
    mainScanPathsIntended c1IsDir c1IsFile [("/lib", "/mnt/lib")]
        (some ["/lib/movies/foo.mp4"]) =
      ["/lib/movies/foo.mp4", "/lib/movies",
       "/mnt/lib/movies/foo.mp4", "/mnt/lib/movies"] ∧
    "/lib/movies" ∈ mainScanPathsIntended c1IsDir c1IsFile [("/lib", "/mnt/lib")]
        (some ["/lib/movies/foo.mp4"]) ∧
    "/mnt/lib/movies" ∈ mainScanPathsIntended c1IsDir c1IsFile
        [("/lib", "/mnt/lib")] (some ["/lib/movies/foo.mp4"]) := by
  refine ⟨rfl, by simp [mainScanPaths], by simp [mainScanPaths], by decide, ?_, ?_⟩
  · decide
  · decide

/-! ### Shunned-scene bookkeeping (`stash_worker.main`, lines 444–471) -/

/-- Lines 445–452: the run's identify candidates — the freshly queried
unorganized scene ids with every id already present in the persisted
`shunned_scenes.json` filtered out. -/
def filteredUnorganized (unorganized prevShunned : List Nat) : List Nat :=
  unorganized.filter (fun i => !(prevShunned.contains i))

/-- Lines 461–465: the recomputed shunned set — the scenes that are still
unorganized after the identify job, restricted to this run's candidates. -/
def newShunnedScenes (stillUnorganized candidates : List Nat) : List Nat :=
  stillUnorganized.filter (fun i => candidates.contains i)

/-- Contents of `shunned_scenes.json` after the identify stage (lines
444–471): when the candidate list is nonempty the file is rewritten with
`newShunnedScenes` (a full overwrite, lines 466–468); when it is empty the
`if unorganized_scene_ids:` guard skips the stage and the file keeps its
previous contents. -/
def identifyStageShunnedFile (prevShunned origUnorganized stillUnorganized :
    List Nat) : List Nat :=
  let candidates := filteredUnorganized origUnorganized prevShunned
  if candidates.isEmpty then prevShunned
  else newShunnedScenes stillUnorganized candidates

/-- C4: when the identify stage runs (nonempty candidate list), the persisted
shunned set is exactly the ids of this run's originally-unorganized,
non-previously-shunned scenes that are still unorganized afterwards; the
previous file contents are overwritten, not unioned — in particular every
previously shunned id (none of which is ever a candidate) drops out. -/
theorem identifyStage_shunned_overwrite
    (prevShunned origUnorganized stillUnorganized : List Nat)
    (hrun : filteredUnorganized origUnorganized prevShunned ≠ []) :
    (∀ i, i ∈ identifyStageShunnedFile prevShunned origUnorganized
        stillUnorganized ↔
      (i ∈ stillUnorganized ∧ i ∈ origUnorganized ∧ i ∉ prevShunned)) ∧
    identifyStageShunnedFile prevShunned origUnorganized stillUnorganized =
      newShunnedScenes stillUnorganized
        (filteredUnorganized origUnorganized prevShunned) ∧
    (∀ i ∈ prevShunned, i ∉ identifyStageShunnedFile prevShunned
        origUnorganized stillUnorganized) := by
  have hne : ¬ ((filteredUnorganized origUnorganized prevShunned).isEmpty = true) := by
    simpa [List.isEmpty_iff] using hrun
  have heq : identifyStageShunnedFile prevShunned origUnorganized stillUnorganized =
      newShunnedScenes stillUnorganized
        (filteredUnorganized origUnorganized prevShunned) := by
    unfold identifyStageShunnedFile
    rw [if_neg hne]
  have hmemb : ∀ i, i ∈ identifyStageShunnedFile prevShunned origUnorganized
      stillUnorganized ↔
      (i ∈ stillUnorganized ∧ i ∈ origUnorganized ∧ i ∉ prevShunned) := by
    intro i
    rw [heq]
    simp only [newShunnedScenes, filteredUnorganized, List.mem_filter,
      List.contains, List.elem_eq_mem, List.mem_filter, Bool.not_eq_true',
      decide_eq_true_eq, decide_eq_false_iff_not, Bool.and_eq_true]
  exact ⟨hmemb, heq, fun i hi hmem => ((hmemb i).mp hmem).2.2 hi⟩

/-- Witness for `identifyStage_shunned_overwrite` at a concrete run: previous
file `[5]`, this run's unorganized scenes `[1, 5, 2]` (candidates `[1, 2]`),
still-unorganized afterwards `[2, 5, 9]`; the file ends up as `[2]`. -/
theorem identifyStage_shunned_overwrite_witness :
    filteredUnorganized [1, 5, 2] [5] ≠ [] ∧
    ((∀ i, i ∈ identifyStageShunnedFile [5] [1, 5, 2] [2, 5, 9] ↔
        (i ∈ [2, 5, 9] ∧ i ∈ [1, 5, 2] ∧ i ∉ [5])) ∧
      identifyStageShunnedFile [5] [1, 5, 2] [2, 5, 9] =
        newShunnedScenes [2, 5, 9] (filteredUnorganized [1, 5, 2] [5]) ∧
      (∀ i ∈ [5], i ∉ identifyStageShunnedFile [5] [1, 5, 2] [2, 5, 9])) :=
  ⟨by decide, identifyStage_shunned_overwrite [5] [1, 5, 2] [2, 5, 9] (by decide)⟩

/-! ### Duplicate pruning (`stash_worker.del_duplicates_main`, lines 350–362) -/

/-- A scene as consumed by `del_duplicates_main`: its id and the sizes of its
associated files (`scene["files"]`, each contributing `f["size"]`). -/
structure DupScene where
  id : Nat
  files : List Nat
deriving DecidableEq

/-- Embeds `max([f["size"] for f in scene["files"]])`.  On nonempty size lists
`foldl max 0` agrees with Python's `max`; Python raises on an empty list, so
theorems about this embedding carry a nonempty-files hypothesis. -/
def maxFileSize (s : DupScene) : Nat :=
  s.files.foldl max 0

/-- The ascending comparison used by `scenes.sort(key=lambda scene: max(...))`. -/
def dupLe (a b : DupScene) : Bool :=
  maxFileSize a ≤ maxFileSize b

/-- The ids contributed by one duplicate group: sort ascending by largest file
size (Python `list.sort` is stable; so is `List.mergeSort`), then take every
scene except the last (`scenes[:-1]`). -/
def delGroupIds (scenes : List DupScene) : List Nat :=
  ((scenes.mergeSort dupLe).dropLast).map DupScene.id

/-- The list `ids_to_delete` accumulated over all groups returned by
`findDuplicateScenes` (lines 353–357); this list is handed to
`delete_scene_ids` when nonempty. -/
def delDuplicatesIds (groups : List (List DupScene)) : List Nat :=
  groups.flatMap delGroupIds

theorem dupLe_trans : ∀ a b c : DupScene, dupLe a b → dupLe b c → dupLe a c := by
  intro a b c hab hbc
  simp only [dupLe, decide_eq_true_eq] at *
  omega

theorem dupLe_total : ∀ a b : DupScene, dupLe a b || dupLe b a := by
  intro a b
  simp only [dupLe, Bool.or_eq_true, decide_eq_true_eq]
  omega

/-- Within one group whose scenes have pairwise distinct largest-file sizes,
`del_duplicates_main` deletes exactly every scene except a surviving one of
maximal largest-file size. -/
theorem delGroup_survivor (g : List DupScene) (hne : g ≠ [])
    (hdist : g.Pairwise (fun a b => maxFileSize a ≠ maxFileSize b)) :
    ∃ survivor, survivor ∈ g ∧
      (∀ s ∈ g, maxFileSize s ≤ maxFileSize survivor) ∧
      List.Perm (delGroupIds g) ((g.erase survivor).map DupScene.id) := by
  classical
  set l := g.mergeSort dupLe with hl
  have hperm : List.Perm l g := List.mergeSort_perm g dupLe
  have hlne : l ≠ [] := by
    intro h
    exact hne (h ▸ hperm).symm.eq_nil
  have hsorted : l.Pairwise (fun a b => dupLe a b) :=
    List.sorted_mergeSort dupLe_trans dupLe_total g
  set survivor := l.getLast hlne with hsurv
  have hdecomp : l.dropLast ++ [survivor] = l := List.dropLast_append_getLast hlne
  have hsorted' : (l.dropLast ++ [survivor]).Pairwise (fun a b => dupLe a b) := by
    rw [hdecomp]; exact hsorted
  have hmaxInit : ∀ x ∈ l.dropLast, dupLe x survivor := by
    intro x hx
    have := (List.pairwise_append.mp hsorted').2.2
    exact this x hx survivor (List.mem_singleton_self survivor)
  have hmaxl : ∀ s ∈ l, maxFileSize s ≤ maxFileSize survivor := by
    intro s hs
    rw [← hdecomp] at hs
    rcases List.mem_append.mp hs with h | h
    · simpa [dupLe, decide_eq_true_eq] using hmaxInit s h
    · rcases List.mem_singleton.mp h with rfl
      exact le_refl _
  have hdistl : l.Pairwise (fun a b => maxFileSize a ≠ maxFileSize b) :=
    (hperm.pairwise_iff (fun h => Ne.symm h)).mpr hdist
  have hnotmem : survivor ∉ l.dropLast := by
    intro hmem
    have hdist' := (List.pairwise_append.mp (hdecomp ▸ hdistl)).2.2
    exact hdist' survivor hmem survivor (List.mem_singleton_self survivor) rfl
  have herase : l.erase survivor = l.dropLast := by
    conv_lhs => rw [← hdecomp]
    rw [List.erase_append_right _ hnotmem, List.erase_cons_head, List.append_nil]
  refine ⟨survivor, hperm.mem_iff.mp (List.getLast_mem hlne), ?_, ?_⟩
  · intro s hs
    exact hmaxl s (hperm.mem_iff.mpr hs)
  · have hp : List.Perm l.dropLast (g.erase survivor) := herase ▸ hperm.erase survivor
    exact hp.map DupScene.id

/-- A two-element group where the first scene has the strictly larger
largest-file size contributes exactly the second scene's id. -/
theorem delGroup_pair_firstLarger (a b : DupScene)
    (h : maxFileSize b < maxFileSize a) : delGroupIds [a, b] = [b.id] := by
  classical
  obtain ⟨s, hs, hmax, hperm⟩ := delGroup_survivor [a, b] (by simp)
    (by simp only [List.pairwise_cons, List.mem_singleton, List.mem_cons,
          List.not_mem_nil, List.Pairwise.nil, and_true]
        constructor
        · intro x hx
          rcases hx with rfl | hx
          · omega
          · cases hx
        · simp)
  have hsa : s = a := by
    have hmem : s = a ∨ s = b := by simpa using hs
    rcases hmem with rfl | rfl
    · rfl
    · have := hmax a (by simp)
      omega
  rw [hsa] at hperm
  rw [List.erase_cons_head] at hperm
  simpa using List.perm_singleton.mp hperm

/-- A two-element group where the second scene has the strictly larger
largest-file size contributes exactly the first scene's id. -/
theorem delGroup_pair_secondLarger (a b : DupScene)
    (h : maxFileSize a < maxFileSize b) : delGroupIds [a, b] = [a.id] := by
  classical
  obtain ⟨s, hs, hmax, hperm⟩ := delGroup_survivor [a, b] (by simp)
    (by simp only [List.pairwise_cons, List.mem_singleton, List.mem_cons,
          List.not_mem_nil, List.Pairwise.nil, and_true]
        constructor
        · intro x hx
          rcases hx with rfl | hx
          · omega
          · cases hx
        · simp)
  have hne : a ≠ b := by
    intro hab
    rw [hab] at h
    omega
  have hsb : s = b := by
    have hmem : s = a ∨ s = b := by simpa using hs
    rcases hmem with rfl | rfl
    · have := hmax b (by simp)
      omega
    · rfl
  rw [hsb] at hperm
  rw [List.erase_cons_tail, List.erase_cons_head] at hperm
  · simpa using List.perm_singleton.mp hperm
  · simpa using hne

/-- For a scene with at least one file, `maxFileSize` is the size of one of
its files (Python's `max` over the nonempty size list). -/
theorem maxFileSize_mem (s : DupScene) (h : s.files ≠ []) :
    maxFileSize s ∈ s.files := by
  rcases s with ⟨i, files⟩
  cases files with
  | nil => cases h rfl
  | cons x xs =>
    have hfold : maxFileSize ⟨i, x :: xs⟩ = List.foldl max x xs := by
      simp [maxFileSize]
    rw [hfold]
    have hm : (x :: xs).max? = some (List.foldl max x xs) := rfl
    exact List.max?_mem max_choice hm

/-- C6: `del_duplicates_main` deletes, within every duplicate group, exactly
the scenes other than one surviving scene whose largest associated file is
biggest (groups assumed nonempty with nonempty file lists and pairwise
distinct largest-file sizes, matching Python's `max` over a nonempty list and
the spec's definite article); in particular, on the spec's concrete pair of
groups the deletion call receives exactly `[2, 3]`. -/
theorem del_duplicates_main_spec (groups : List (List DupScene))
    (hne : ∀ g ∈ groups, g ≠ [])
    (hfiles : ∀ g ∈ groups, ∀ s ∈ g, s.files ≠ [])
    (hdist : ∀ g ∈ groups,
      g.Pairwise (fun a b => maxFileSize a ≠ maxFileSize b)) :
    (∀ g ∈ groups, ∀ s ∈ g, maxFileSize s ∈ s.files) ∧
    (∀ g ∈ groups, ∃ survivor, survivor ∈ g ∧
      (∀ s ∈ g, maxFileSize s ≤ maxFileSize survivor) ∧
      List.Perm (delGroupIds g) ((g.erase survivor).map DupScene.id)) ∧
    delDuplicatesIds [[⟨1, [100]⟩, ⟨2, [50]⟩], [⟨3, [10]⟩, ⟨4, [90]⟩]] =
      [2, 3] := by
  refine ⟨fun g hg s hs => maxFileSize_mem s (hfiles g hg s hs),
    fun g hg => delGroup_survivor g (hne g hg) (hdist g hg), ?_⟩
  have h1 : delGroupIds [⟨1, [100]⟩, ⟨2, [50]⟩] = [2] :=
    delGroup_pair_firstLarger ⟨1, [100]⟩ ⟨2, [50]⟩ (by decide)
  have h2 : delGroupIds [⟨3, [10]⟩, ⟨4, [90]⟩] = [3] :=
    delGroup_pair_secondLarger ⟨3, [10]⟩ ⟨4, [90]⟩ (by decide)
  simp [delDuplicatesIds, h1, h2]

/-- Witness for `del_duplicates_main_spec` at the spec's concrete input: the
two duplicate groups `[{id:1,size:100},{id:2,size:50}]` and
`[{id:3,size:10},{id:4,size:90}]`. -/
theorem del_duplicates_main_spec_witness :
    ((∀ g ∈ [[(⟨1, [100]⟩ : DupScene), ⟨2, [50]⟩], [⟨3, [10]⟩, ⟨4, [90]⟩]],
        g ≠ []) ∧
      (∀ g ∈ [[(⟨1, [100]⟩ : DupScene), ⟨2, [50]⟩], [⟨3, [10]⟩, ⟨4, [90]⟩]],
        ∀ s ∈ g, s.files ≠ []) ∧
      (∀ g ∈ [[(⟨1, [100]⟩ : DupScene), ⟨2, [50]⟩], [⟨3, [10]⟩, ⟨4, [90]⟩]],
        g.Pairwise (fun a b => maxFileSize a ≠ maxFileSize b))) ∧
    delDuplicatesIds [[⟨1, [100]⟩, ⟨2, [50]⟩], [⟨3, [10]⟩, ⟨4, [90]⟩]] =
      [2, 3] :=
  ⟨⟨by decide, by decide, by decide⟩,
    (del_duplicates_main_spec
      [[⟨1, [100]⟩, ⟨2, [50]⟩], [⟨3, [10]⟩, ⟨4, [90]⟩]]
      (by decide) (by decide) (by decide)).2.2⟩

/-! ### Filesystem watcher handler (`stash_watcher.py`, lines 164–190) -/

/-- Embeds `os.path.dirname` for POSIX paths, following `posixpath.dirname`: take
everything up to and including the last `'/'`, then strip trailing slashes
unless the head consists only of slashes (so `dirname "/foo" = "/"`,
`dirname "foo" = ""`, `dirname "/a/b/c.mp4" = "/a/b"`). -/
def osPathDirname (p : String) : String :=
  let cs := p.toList
  let i := cs.length - (cs.reverse.takeWhile (fun c => c ≠ '/')).length
  let head := cs.take i
  if head ≠ [] ∧ head.any (fun c => c ≠ '/') then
    String.mk ((head.reverse.dropWhile (fun c => c = '/')).reverse)
  else
    String.mk head

/-- A watchdog `FileSystemEvent` as consumed by `Handler.on_created`:
`src_path` and `is_directory`. -/
structure FsEvent where
  srcPath : String
  isDirectory : Bool
deriving DecidableEq

/-- An observable action of the watcher handler: a single-path permission
normalization (`fix_single_path`) or a rescan invocation
(`stash_worker.main(paths)`). -/
inductive WatcherAction : Type
  | fixSinglePath (p : String)
  | workerMain (paths : List String)
deriving DecidableEq

/-- Embeds `Handler.on_created` (stash_watcher.py lines 183–190) as the trace
of calls it issues: directory events return immediately; file events call
`fix_single_path(event.src_path)`, then
`fix_single_path(os.path.dirname(event.src_path))`, then
`stash_worker.main([event.src_path])`. -/
def onCreated (e : FsEvent) : List WatcherAction :=
  if e.isDirectory then []
  else
    [WatcherAction.fixSinglePath e.srcPath,
     WatcherAction.fixSinglePath (osPathDirname e.srcPath),
     WatcherAction.workerMain [e.srcPath]]

/-- C7: a `created` event for a directory triggers no action; a `created`
event for a file `f` triggers exactly the trace
`[normalize f, normalize (dirname f), rescan [f]]` — in that order — and
(whenever `dirname f ≠ f`, which holds for every proper file path) exactly
one normalization call for `f`, exactly one for its parent, and exactly one
rescan call with path list `[f]`. -/
theorem onCreated_spec (e : FsEvent) :
    (e.isDirectory = true → onCreated e = []) ∧
    (e.isDirectory = false →
      onCreated e =
        [WatcherAction.fixSinglePath e.srcPath,
         WatcherAction.fixSinglePath (osPathDirname e.srcPath),
         WatcherAction.workerMain [e.srcPath]] ∧
      (osPathDirname e.srcPath ≠ e.srcPath →
        (onCreated e).count (WatcherAction.fixSinglePath e.srcPath) = 1 ∧
        (onCreated e).count
          (WatcherAction.fixSinglePath (osPathDirname e.srcPath)) = 1) ∧
      (onCreated e).count (WatcherAction.workerMain [e.srcPath]) = 1) := by
  constructor
  · intro h
    simp [onCreated, h]
  · intro h
    refine ⟨by simp [onCreated, h], ?_, ?_⟩
    · intro hne
      constructor
      · simp [onCreated, h, List.count_cons, List.count_nil, hne]
      · simp [onCreated, h, List.count_cons, List.count_nil, Ne.symm hne]
    · simp [onCreated, h, List.count_cons, List.count_nil]

/-- Witness for `onCreated_spec` at the concrete created-file event for
`/lib/movies/foo.mp4` (and, for the directory half, the same path flagged as
a directory). -/
theorem onCreated_spec_witness :
    ((⟨"/lib/movies/foo.mp4", true⟩ : FsEvent).isDirectory = true ∧
      onCreated ⟨"/lib/movies/foo.mp4", true⟩ = []) ∧
    ((⟨"/lib/movies/foo.mp4", false⟩ : FsEvent).isDirectory = false ∧
      onCreated ⟨"/lib/movies/foo.mp4", false⟩ =
        [WatcherAction.fixSinglePath "/lib/movies/foo.mp4",
         WatcherAction.fixSinglePath "/lib/movies",
         WatcherAction.workerMain ["/lib/movies/foo.mp4"]] ∧
      (onCreated ⟨"/lib/movies/foo.mp4", false⟩).count
        (WatcherAction.fixSinglePath "/lib/movies/foo.mp4") = 1 ∧
      (onCreated ⟨"/lib/movies/foo.mp4", false⟩).count
        (WatcherAction.fixSinglePath "/lib/movies") = 1 ∧
      (onCreated ⟨"/lib/movies/foo.mp4", false⟩).count
        (WatcherAction.workerMain ["/lib/movies/foo.mp4"]) = 1) := by
  have hdir : osPathDirname "/lib/movies/foo.mp4" = "/lib/movies" := by decide
  have h2 := (onCreated_spec ⟨"/lib/movies/foo.mp4", false⟩).2 rfl
  have h1 := (onCreated_spec ⟨"/lib/movies/foo.mp4", true⟩).1 rfl
  refine ⟨⟨rfl, h1⟩, rfl, ?_, ?_, ?_, ?_⟩
  · rw [hdir] at h2
    exact h2.1
  · exact ((h2.2.1 (by decide)).1)
  · have := (h2.2.1 (by decide)).2
    rwa [hdir] at this
  · exact h2.2.2

/-! ### Permission normalization (`stash_watcher.fix_permissions`, lines 45–100) -/

/-- The kind of a walked filesystem entry: directories come from `os.walk`'s
`dirpath`, files and symlinks from its `filenames` (symlinks are detected via
`os.lstat` + `stat.S_ISLNK` and skipped). -/
inductive EntryKind : Type
  | directory
  | file
  | symlink
deriving DecidableEq

/-- A filesystem entry as seen by `fix_permissions`: its kind, owner, group,
and full `st_mode` (whose low twelve bits `st_mode & 0o7777` are the
permission bits compared and rewritten). -/
structure FsEntry where
  kind : EntryKind
  uid : Nat
  gid : Nat
  mode : Nat
deriving DecidableEq

/-- A syscall issued by the normalizer. -/
inductive PermCall : Type
  | chown (uid gid : Nat)
  | chmod (permBits : Nat)
deriving DecidableEq

/-- The per-entry body shared by the directory branch (target bits `0o2775`)
and the file branch (target bits `0o664`) of `fix_permissions`: `chown` only
when owner or group differs, then `chmod` only when the low twelve mode bits
differ (`st_mode & 0o7777`, i.e. `mode % 4096`, is compared against the
target; `chmod` rewrites exactly those twelve bits).  Both `needs_*` flags
are computed from the single upfront `stat` result, as in the source. -/
def fixEntryAt (tu tg target : Nat) (e : FsEntry) : List PermCall × FsEntry :=
  let chownCalls : List PermCall :=
    if e.uid ≠ tu ∨ e.gid ≠ tg then [PermCall.chown tu tg] else []
  let e1 : FsEntry :=
    if e.uid ≠ tu ∨ e.gid ≠ tg then { e with uid := tu, gid := tg } else e
  let chmodCalls : List PermCall :=
    if e.mode % 4096 ≠ target then [PermCall.chmod target] else []
  let e2 : FsEntry :=
    if e.mode % 4096 ≠ target then
      { e1 with mode := e1.mode - e1.mode % 4096 + target }
    else e1
  (chownCalls ++ chmodCalls, e2)

/-- One entry of the `fix_permissions` walk: symlinks are skipped untouched,
directories are normalized towards `0o2775`, files towards `0o664`. -/
def fixEntry (tu tg : Nat) (e : FsEntry) : List PermCall × FsEntry :=
  match e.kind with
  | EntryKind.symlink => ([], e)
  | EntryKind.directory => fixEntryAt tu tg 0o2775 e
  | EntryKind.file => fixEntryAt tu tg 0o664 e

/-- The full `fix_permissions` pass over a tree (entries listed in walk
order): the concatenated syscall trace and the resulting tree. -/
def fixPermissions (tu tg : Nat) : List FsEntry → List PermCall × List FsEntry
  | [] => ([], [])
  | e :: rest =>
    let r := fixEntry tu tg e
    let rs := fixPermissions tu tg rest
    (r.1 ++ rs.1, r.2 :: rs.2)

/-- An entry already conforming to the normalization targets: directories
owned `tu:tg` with permission bits `0o2775`, files owned `tu:tg` with bits
`0o664`, symlinks unconstrained. -/
def entryCorrect (tu tg : Nat) (e : FsEntry) : Prop :=
  match e.kind with
  | EntryKind.symlink => True
  | EntryKind.directory => e.uid = tu ∧ e.gid = tg ∧ e.mode % 4096 = 0o2775
  | EntryKind.file => e.uid = tu ∧ e.gid = tg ∧ e.mode % 4096 = 0o664

theorem fixEntry_correct (tu tg : Nat) (e : FsEntry)
    (h : entryCorrect tu tg e) : fixEntry tu tg e = ([], e) := by
  rcases e with ⟨kind, uid, gid, mode⟩
  cases kind with
  | symlink => rfl
  | directory =>
    rcases h with ⟨h1, h2, h3⟩
    have h1' : uid = tu := h1
    have h2' : gid = tg := h2
    have h3' : mode % 4096 = 1533 := h3
    subst h1'
    subst h2'
    simp [fixEntry, fixEntryAt, h3']
  | file =>
    rcases h with ⟨h1, h2, h3⟩
    have h1' : uid = tu := h1
    have h2' : gid = tg := h2
    have h3' : mode % 4096 = 436 := h3
    subst h1'
    subst h2'
    simp [fixEntry, fixEntryAt, h3']

theorem fixPermissions_correct (tu tg : Nat) (tree : List FsEntry)
    (h : ∀ e ∈ tree, entryCorrect tu tg e) :
    fixPermissions tu tg tree = ([], tree) := by
  induction tree with
  | nil => rfl
  | cons e rest ih =>
    have he := fixEntry_correct tu tg e (h e (List.mem_cons_self e rest))
    have hr := ih (fun x hx => h x (List.mem_cons_of_mem e hx))
    simp [fixPermissions, he, hr]

/-- C8: on a tree whose entries already carry the target owner/group and the
target permission bits (directories `0o2775`, files `0o664`; symlinks
arbitrary), the normalization pass issues zero `chown`/`chmod` calls and
leaves the tree unchanged — so a second full pass (run on the first pass's
output) also issues zero calls.  Each syscall is guarded by a
current-vs-target comparison. -/
theorem fixPermissions_idempotent (tu tg : Nat) (tree : List FsEntry)
    (hcorrect : ∀ e ∈ tree, entryCorrect tu tg e) :
    (fixPermissions tu tg tree).1 = [] ∧
    (fixPermissions tu tg tree).2 = tree ∧
    (fixPermissions tu tg ((fixPermissions tu tg tree)).2).1 = [] := by
  have h := fixPermissions_correct tu tg tree hcorrect
  rw [h]
  exact ⟨rfl, rfl, by rw [fixPermissions_correct tu tg tree hcorrect]⟩

/-- Witness for `fixPermissions_idempotent` on a concrete already-correct
tree: a directory with mode `040000 + 0o2775`, a file with mode
`0100000 + 0o664`, and a symlink with arbitrary bits, all owned `1000:1000`. -/
theorem fixPermissions_idempotent_witness :
    (∀ e ∈ [(⟨EntryKind.directory, 1000, 1000, 0o42775⟩ : FsEntry),
            ⟨EntryKind.file, 1000, 1000, 0o100664⟩,
            ⟨EntryKind.symlink, 0, 0, 0o120777⟩],
        entryCorrect 1000 1000 e) ∧
    ((fixPermissions 1000 1000
        [(⟨EntryKind.directory, 1000, 1000, 0o42775⟩ : FsEntry),
         ⟨EntryKind.file, 1000, 1000, 0o100664⟩,
         ⟨EntryKind.symlink, 0, 0, 0o120777⟩]).1 = [] ∧
      (fixPermissions 1000 1000
        [(⟨EntryKind.directory, 1000, 1000, 0o42775⟩ : FsEntry),
         ⟨EntryKind.file, 1000, 1000, 0o100664⟩,
         ⟨EntryKind.symlink, 0, 0, 0o120777⟩]).2 =
        [(⟨EntryKind.directory, 1000, 1000, 0o42775⟩ : FsEntry),
         ⟨EntryKind.file, 1000, 1000, 0o100664⟩,
         ⟨EntryKind.symlink, 0, 0, 0o120777⟩] ∧
      (fixPermissions 1000 1000
        ((fixPermissions 1000 1000
          [(⟨EntryKind.directory, 1000, 1000, 0o42775⟩ : FsEntry),
           ⟨EntryKind.file, 1000, 1000, 0o100664⟩,
           ⟨EntryKind.symlink, 0, 0, 0o120777⟩]).2)).1 = []) :=
  ⟨by
    intro e he
    fin_cases he <;> simp [entryCorrect],
   fixPermissions_idempotent 1000 1000
     [⟨EntryKind.directory, 1000, 1000, 0o42775⟩,
      ⟨EntryKind.file, 1000, 1000, 0o100664⟩,
      ⟨EntryKind.symlink, 0, 0, 0o120777⟩]
     (by
       intro e he
       fin_cases he <;> simp [entryCorrect])⟩

/-! ### Background poller (`stash_watcher.BackgroundPoller`, lines 103–127) -/

/-- Program points of the `BackgroundPoller.run` loop:
`checkLoop` = the `while not self._stop_event.is_set()` test,
`waiting` = inside `self._stop_event.wait(timeout=self.interval)`,
`postWait` = `wait` returned `False` and the cycle body is about to start,
`running` = executing one cycle (`fix_permissions(); stash_worker.main()`,
exceptions caught), `done` = the loop has exited. -/
inductive PollerPc : Type
  | checkLoop
  | waiting
  | postWait
  | running
  | done
deriving DecidableEq

/-- The poller's observable state: its program point and the shared
`threading.Event` stop flag (settable at any time by `stop()`). -/
structure PollerState where
  pc : PollerPc
  stopFlag : Bool
deriving DecidableEq

/-- Interleaved small-step semantics of the poller loop together with the
environment's `stop()` calls.  `wait` returns `True` only if the flag is set
(`waitSignaled`) and returns `False` on timeout only if the flag is unset at
that moment (`waitTimeout`); the flag is never cleared.  `stay` lets a state
idle (time passing, or a terminal state). -/
inductive PollerStep : PollerState → PollerState → Prop
  | setStop (pc : PollerPc) : PollerStep ⟨pc, false⟩ ⟨pc, true⟩
  | checkNotSet : PollerStep ⟨PollerPc.checkLoop, false⟩ ⟨PollerPc.waiting, false⟩
  | checkSet : PollerStep ⟨PollerPc.checkLoop, true⟩ ⟨PollerPc.done, true⟩
  | waitSignaled : PollerStep ⟨PollerPc.waiting, true⟩ ⟨PollerPc.done, true⟩
  | waitTimeout : PollerStep ⟨PollerPc.waiting, false⟩ ⟨PollerPc.postWait, false⟩
  | beginCycle (f : Bool) : PollerStep ⟨PollerPc.postWait, f⟩ ⟨PollerPc.running, f⟩
  | cycleEnd (f : Bool) : PollerStep ⟨PollerPc.running, f⟩ ⟨PollerPc.checkLoop, f⟩
  | stay (s : PollerState) : PollerStep s s

/-- C9: (i) once the loop has observed the stop signal and exited
(`pc = done` — reached exactly by the two observation transitions `checkSet`
and `waitSignaled`), every later state of every execution still has
`pc = done`; in particular no later state is mid-cycle, so no cycle begins
after the stop signal is observed.  (ii) From a `waiting` state with the stop
flag set, the only possible transitions are idling and the wait returning
signaled (the timeout branch that would start a new cycle is impossible), so
the current `wait` can only exit the loop. -/
theorem poller_no_cycle_after_stop :
    (∀ tr : Nat → PollerState,
      (∀ n, PollerStep (tr n) (tr (n + 1))) →
      ∀ m, (tr m).pc = PollerPc.done →
        ∀ n, m ≤ n → (tr n).pc = PollerPc.done ∧ (tr n).pc ≠ PollerPc.running) ∧
    (∀ s' : PollerState,
      PollerStep ⟨PollerPc.waiting, true⟩ s' →
        s' = ⟨PollerPc.waiting, true⟩ ∨ s' = ⟨PollerPc.done, true⟩) := by
  constructor
  · intro tr hstep m hm n hmn
    have habs : ∀ k, (tr (m + k)).pc = PollerPc.done := by
      intro k
      induction k with
      | zero => simpa using hm
      | succ k ih =>
        have h := hstep (m + k)
        rcases hs : tr (m + k) with ⟨pc, f⟩
        rcases hs' : tr (m + k + 1) with ⟨pc', f'⟩
        rw [hs] at ih h
        rw [hs'] at h
        simp only at ih
        subst ih
        cases h with
        | setStop _ => simp [show m + (k + 1) = m + k + 1 from rfl, hs']
        | stay _ => simp [show m + (k + 1) = m + k + 1 from rfl, hs']
    obtain ⟨k, rfl⟩ := Nat.exists_eq_add_of_le hmn
    exact ⟨habs k, by rw [habs k]; intro h; cases h⟩
  · intro s' h
    cases h with
    | waitSignaled => right; rfl
    | stay _ => left; rfl

/-- Witness for `poller_no_cycle_after_stop`: the constant execution sitting
at `⟨done, true⟩` (every step is `stay`), examined at `m = 0`, `n = 1`; and
the `waitSignaled` transition out of `⟨waiting, true⟩`. -/
theorem poller_no_cycle_after_stop_witness :
    ((fun _ : Nat => (⟨PollerPc.done, true⟩ : PollerState)) 1).pc =
        PollerPc.done ∧
      ((fun _ : Nat => (⟨PollerPc.done, true⟩ : PollerState)) 1).pc ≠
        PollerPc.running ∧
    ((⟨PollerPc.done, true⟩ : PollerState) = ⟨PollerPc.waiting, true⟩ ∨
      (⟨PollerPc.done, true⟩ : PollerState) = ⟨PollerPc.done, true⟩) := by
  have h1 := poller_no_cycle_after_stop.1
    (fun _ => ⟨PollerPc.done, true⟩)
    (fun _ => PollerStep.stay ⟨PollerPc.done, true⟩)
    0 rfl 1 (by decide)
  have h2 := poller_no_cycle_after_stop.2 ⟨PollerPc.done, true⟩
    PollerStep.waitSignaled
  exact ⟨h1.1, h1.2, h2⟩

/-! ### `wait_for_job` (`stash_worker.py`, lines 373–409) -/

/-- The outcome of `wait_for_job`: a Python return value (`True`, `False`, or
`None`) or the raised timeout `Exception`. -/
inductive WaitOutcome : Type
  | result (r : Option Bool)
  | timeoutExc
deriving DecidableEq

/-- The clock value at which poll number `n` happens: poll `0` at time `0`
(`timeout_value = time.time() + timeout` is normalised so the start time is
`0`), and each iteration advances the clock by the duration `dur n` of the
`find_job` round-trip plus the `time.sleep(period)` between polls. -/
def pollTime (dur : Nat → Nat) (period : Nat) : Nat → Nat
  | 0 => 0
  | n + 1 => pollTime dur period n + dur n + period

/-- The `while time.time() < timeout_value` loop of `wait_for_job`, with the
remote server's answers given by `find : pollIndex → Option status` (Python
`stash.find_job`; `none` = falsy job) and explicit fuel (a pure termination
device: the clock grows by at least `period ≥ 1` per iteration, so
`timeoutValue + 1` fuel is never exhausted).  Per iteration: check the
clock against `timeout_value`; a missing job returns `None`; a status equal
to the target returns `True`; `FINISHED`/`CANCELLED` returns `False`;
otherwise sleep and re-poll.  Falling out of the loop raises the timeout
exception. -/
def waitForJobLoop (find : Nat → Option String) (dur : Nat → Nat)
    (target : String) (period timeoutValue : Nat) :
    Nat → Nat → Nat → Option WaitOutcome
  | 0, _, _ => none
  | fuel + 1, n, t =>
    if t < timeoutValue then
      match find n with
      | none => some (WaitOutcome.result none)
      | some st =>
        if st = target then some (WaitOutcome.result (some true))
        else if st = "FINISHED" ∨ st = "CANCELLED" then
          some (WaitOutcome.result (some false))
        else
          waitForJobLoop find dur target period timeoutValue fuel (n + 1)
            (t + dur n + period)
    else some WaitOutcome.timeoutExc

/-- Embeds `wait_for_job(stash, job_id, status=target, period, timeout)`: run the
loop from poll index `0` at clock `0`. -/
def waitForJob (find : Nat → Option String) (dur : Nat → Nat) (target : String)
    (period timeout : Nat) : Option WaitOutcome :=
  waitForJobLoop find dur target period timeout (timeout + 1) 0 0

/-- A status that neither matches the target nor is terminal, so the loop
keeps polling. -/
def noncommittal (target st : String) : Prop :=
  st ≠ target ∧ st ≠ "FINISHED" ∧ st ≠ "CANCELLED"

theorem pollTime_mono (dur : Nat → Nat) (period : Nat) :
    ∀ {k n : Nat}, k ≤ n → pollTime dur period k ≤ pollTime dur period n := by
  intro k n h
  induction n with
  | zero => simp [Nat.le_zero.mp h]
  | succ n ih =>
    rcases Nat.lt_or_ge k (n + 1) with h' | h'
    · exact le_trans (ih (Nat.lt_succ_iff.mp h')) (by simp [pollTime]; omega)
    · have : k = n + 1 := le_antisymm h h'
      simp [this]

theorem pollTime_succ_ge (dur : Nat → Nat) (period : Nat) (n : Nat) :
    pollTime dur period n + period ≤ pollTime dur period (n + 1) := by
  have h : pollTime dur period (n + 1) =
      pollTime dur period n + dur n + period := rfl
  omega

/-- If polls `k, …, n-1` are noncommittal and poll `n` happens before the
deadline, the loop started at poll `k` returns `True` as soon as poll `n`
matches the target. -/
theorem waitForJobLoop_matched (find : Nat → Option String) (dur : Nat → Nat)
    (target : String) (period timeoutValue : Nat) (hp : 0 < period) (n : Nat)
    (hn : pollTime dur period n < timeoutValue)
    (hfind : find n = some target) :
    ∀ fuel k, timeoutValue - pollTime dur period k < fuel → k ≤ n →
      (∀ i, k ≤ i → i < n → ∃ st, find i = some st ∧ noncommittal target st) →
      waitForJobLoop find dur target period timeoutValue fuel k
        (pollTime dur period k) = some (WaitOutcome.result (some true)) := by
  intro fuel
  induction fuel with
  | zero => intro k hfuel _ _; omega
  | succ fuel ih =>
    intro k hfuel hkn hpre
    rcases Nat.lt_or_ge k n with hlt | hge
    · obtain ⟨st, hst, hst1, hst2, hst3⟩ := hpre k le_rfl hlt
      have hck : pollTime dur period k < timeoutValue :=
        lt_of_le_of_lt (pollTime_mono dur period (Nat.le_of_lt hlt)) hn
      have hstep : pollTime dur period k + dur k + period =
          pollTime dur period (k + 1) := by simp [pollTime]
      simp only [waitForJobLoop, if_pos hck, hst, if_neg hst1,
        if_neg (by simp [hst2, hst3] : ¬(st = "FINISHED" ∨ st = "CANCELLED"))]
      rw [hstep]
      exact ih (k + 1)
        (by have := pollTime_succ_ge dur period k; omega)
        hlt (fun i hi1 hi2 => hpre i (Nat.le_of_succ_le hi1) hi2)
    · have hk : k = n := le_antisymm hkn hge
      subst hk
      simp [waitForJobLoop, if_pos hn, hfind]

/-- Same skeleton for a first terminal non-matching status: the loop returns
`False`. -/
theorem waitForJobLoop_terminal (find : Nat → Option String) (dur : Nat → Nat)
    (target : String) (period timeoutValue : Nat) (hp : 0 < period) (n : Nat)
    (st : String) (hn : pollTime dur period n < timeoutValue)
    (hfind : find n = some st) (hne : st ≠ target)
    (hterm : st = "FINISHED" ∨ st = "CANCELLED") :
    ∀ fuel k, timeoutValue - pollTime dur period k < fuel → k ≤ n →
      (∀ i, k ≤ i → i < n → ∃ st, find i = some st ∧ noncommittal target st) →
      waitForJobLoop find dur target period timeoutValue fuel k
        (pollTime dur period k) = some (WaitOutcome.result (some false)) := by
  intro fuel
  induction fuel with
  | zero => intro k hfuel _ _; omega
  | succ fuel ih =>
    intro k hfuel hkn hpre
    rcases Nat.lt_or_ge k n with hlt | hge
    · obtain ⟨st', hst, hst1, hst2, hst3⟩ := hpre k le_rfl hlt
      have hck : pollTime dur period k < timeoutValue :=
        lt_of_le_of_lt (pollTime_mono dur period (Nat.le_of_lt hlt)) hn
      have hstep : pollTime dur period k + dur k + period =
          pollTime dur period (k + 1) := by simp [pollTime]
      simp only [waitForJobLoop, if_pos hck, hst, if_neg hst1,
        if_neg (by simp [hst2, hst3] : ¬(st' = "FINISHED" ∨ st' = "CANCELLED"))]
      rw [hstep]
      exact ih (k + 1)
        (by have := pollTime_succ_ge dur period k; omega)
        hlt (fun i hi1 hi2 => hpre i (Nat.le_of_succ_le hi1) hi2)
    · have hk : k = n := le_antisymm hkn hge
      subst hk
      simp [waitForJobLoop, if_pos hn, hfind, if_neg hne, hterm]

/-- Same skeleton for a first vanished job: the loop returns `None`. -/
theorem waitForJobLoop_vanished (find : Nat → Option String) (dur : Nat → Nat)
    (target : String) (period timeoutValue : Nat) (hp : 0 < period) (n : Nat)
    (hn : pollTime dur period n < timeoutValue) (hfind : find n = none) :
    ∀ fuel k, timeoutValue - pollTime dur period k < fuel → k ≤ n →
      (∀ i, k ≤ i → i < n → ∃ st, find i = some st ∧ noncommittal target st) →
      waitForJobLoop find dur target period timeoutValue fuel k
        (pollTime dur period k) = some (WaitOutcome.result none) := by
  intro fuel
  induction fuel with
  | zero => intro k hfuel _ _; omega
  | succ fuel ih =>
    intro k hfuel hkn hpre
    rcases Nat.lt_or_ge k n with hlt | hge
    · obtain ⟨st', hst, hst1, hst2, hst3⟩ := hpre k le_rfl hlt
      have hck : pollTime dur period k < timeoutValue :=
        lt_of_le_of_lt (pollTime_mono dur period (Nat.le_of_lt hlt)) hn
      have hstep : pollTime dur period k + dur k + period =
          pollTime dur period (k + 1) := by simp [pollTime]
      simp only [waitForJobLoop, if_pos hck, hst, if_neg hst1,
        if_neg (by simp [hst2, hst3] : ¬(st' = "FINISHED" ∨ st' = "CANCELLED"))]
      rw [hstep]
      exact ih (k + 1)
        (by have := pollTime_succ_ge dur period k; omega)
        hlt (fun i hi1 hi2 => hpre i (Nat.le_of_succ_le hi1) hi2)
    · have hk : k = n := le_antisymm hkn hge
      subst hk
      simp [waitForJobLoop, if_pos hn, hfind]

/-- If every poll that happens before the deadline is noncommittal, the loop
raises the timeout exception. -/
theorem waitForJobLoop_timeout (find : Nat → Option String) (dur : Nat → Nat)
    (target : String) (period timeoutValue : Nat) (hp : 0 < period)
    (hall : ∀ i, pollTime dur period i < timeoutValue →
      ∃ st, find i = some st ∧ noncommittal target st) :
    ∀ fuel k, timeoutValue - pollTime dur period k < fuel →
      waitForJobLoop find dur target period timeoutValue fuel k
        (pollTime dur period k) = some WaitOutcome.timeoutExc := by
  intro fuel
  induction fuel with
  | zero => intro k hfuel; omega
  | succ fuel ih =>
    intro k hfuel
    rcases Nat.lt_or_ge (pollTime dur period k) timeoutValue with hck | hck
    · obtain ⟨st, hst, hst1, hst2, hst3⟩ := hall k hck
      have hstep : pollTime dur period k + dur k + period =
          pollTime dur period (k + 1) := by simp [pollTime]
      simp only [waitForJobLoop, if_pos hck, hst, if_neg hst1,
        if_neg (by simp [hst2, hst3] : ¬(st = "FINISHED" ∨ st = "CANCELLED"))]
      rw [hstep]
      exact ih (k + 1) (by have := pollTime_succ_ge dur period k; omega)
    · simp [waitForJobLoop, if_neg (Nat.not_lt.mpr hck)]

/-- C5: for every remote-status sequence, call-duration sequence, target
status, positive period and timeout: (i) consecutive polls are always at
least `period` apart (the loop sleeps `period` between polls, so it never
polls faster than that); (ii) if the polls before `n` are noncommittal and
poll `n` happens before the deadline, then a matching status at poll `n`
makes `wait_for_job` return `True` and a non-matching `FINISHED`/`CANCELLED`
status makes it return `False`; (iii) if every poll before the deadline is
noncommittal, `wait_for_job` raises the timeout exception. -/
theorem wait_for_job_spec (find : Nat → Option String) (dur : Nat → Nat)
    (target : String) (period timeout : Nat) (hp : 0 < period) :
    (∀ n, pollTime dur period n + period ≤ pollTime dur period (n + 1)) ∧
    (∀ n, pollTime dur period n < timeout →
      (∀ i, i < n → ∃ st, find i = some st ∧ noncommittal target st) →
      (find n = some target →
        waitForJob find dur target period timeout =
          some (WaitOutcome.result (some true))) ∧
      (∀ st, find n = some st → st ≠ target →
        (st = "FINISHED" ∨ st = "CANCELLED") →
        waitForJob find dur target period timeout =
          some (WaitOutcome.result (some false)))) ∧
    ((∀ i, pollTime dur period i < timeout →
        ∃ st, find i = some st ∧ noncommittal target st) →
      waitForJob find dur target period timeout =
        some WaitOutcome.timeoutExc) := by
  refine ⟨pollTime_succ_ge dur period, ?_, ?_⟩
  · intro n hn hpre
    constructor
    · intro hfind
      have h := waitForJobLoop_matched find dur target period timeout hp n hn
        hfind (timeout + 1) 0 (by simp [pollTime]) (Nat.zero_le n)
        (fun i _ hi2 => hpre i hi2)
      simpa [waitForJob, pollTime] using h
    · intro st hfind hne hterm
      have h := waitForJobLoop_terminal find dur target period timeout hp n st
        hn hfind hne hterm (timeout + 1) 0 (by simp [pollTime])
        (Nat.zero_le n) (fun i _ hi2 => hpre i hi2)
      simpa [waitForJob, pollTime] using h
  · intro hall
    have h := waitForJobLoop_timeout find dur target period timeout hp hall
      (timeout + 1) 0 (by simp [pollTime])
    simpa [waitForJob, pollTime] using h

/-- Witness for `wait_for_job_spec`: with the concrete status stream
`RUNNING, RUNNING, FINISHED, …`, target `"FINISHED"`, zero-duration calls,
period `15` and timeout `120000`, the job is matched at poll `2` and
`wait_for_job` returns `True`; also the poll-gap bound at `n = 0`. -/
theorem wait_for_job_spec_witness :
    0 < 15 ∧
    pollTime (fun _ => 0) 15 0 + 15 ≤ pollTime (fun _ => 0) 15 1 ∧
    pollTime (fun _ => 0) 15 2 < 120000 ∧
    waitForJob (fun i => some (if i < 2 then "RUNNING" else "FINISHED"))
        (fun _ => 0) "FINISHED" 15 120000 =
      some (WaitOutcome.result (some true)) := by
  have hspec := wait_for_job_spec
    (fun i => some (if i < 2 then "RUNNING" else "FINISHED"))
    (fun _ => 0) "FINISHED" 15 120000 (by decide)
  refine ⟨by decide, hspec.1 0, by decide, ?_⟩
  exact (hspec.2.1 2 (by decide)
    (fun i hi => ⟨"RUNNING", by simp [hi], by decide, by decide, by decide⟩)).1
    (by simp)


/-! ### Post-scan pipeline guard structure (`stash_worker.main`, lines 425–505) -/

/-- The Python exception classes relevant to `main`'s `try`/`except`
structure: `requests.RequestException` (which `raise_for_status` errors
subclass), `AssertionError` (a failed `assert`), `OSError`, and any other
`Exception`. -/
inductive PyExc : Type
  | requestException
  | assertionError
  | osError
  | otherError
deriving DecidableEq

/-- The individually observable fallible steps of `main` after the scan:
duplicate pruning (line 431), the unorganized-scenes query (lines 435–437),
the `shunned_scenes.json` read (`open` + `json.load`, lines 445–447,
performed only when the file exists), the wait on the identify job (lines
458–460), the post-identify `find_scenes` re-query (lines 461–465), the
shunned-file write (lines 466–471), the tagging-sweep query (lines 473–477),
the batch tag update (lines 479–487), the AI-server probe (lines 492–494),
the wait on the AI-tagger job (lines 496–500), and metadata generation
(line 505). -/
inductive SubStage : Type
  | dupPrune
  | fetchUnorganized
  | shunnedRead
  | identifyWait
  | identifyRequery
  | shunnedWrite
  | tagQuery
  | tagUpdate
  | aiProbe
  | aiWait
  | generate
deriving DecidableEq

/-- Which exception (if any) each step of the post-scan pipeline would raise
when attempted (`none` = the step succeeds). -/
structure PipelineOutcomes where
  dupPrune : Option PyExc
  fetchUnorganized : Option PyExc
  shunnedRead : Option PyExc
  identifyWait : Option PyExc
  identifyRequery : Option PyExc
  shunnedWrite : Option PyExc
  tagQuery : Option PyExc
  tagUpdate : Option PyExc
  aiProbe : Option PyExc
  aiWait : Option PyExc
  generate : Option PyExc
deriving DecidableEq

/-- Line 505: `stash.metadata_generate()` — the last statement, outside any
`try`; whatever it raises escapes `main`. -/
def runGenerate (oc : PipelineOutcomes) : List SubStage × Option PyExc :=
  ([SubStage.generate], oc.generate)

/-- Lines 491–502: one `try` block containing the AI-server probe
(`requests.get` + `raise_for_status`), the plugin-task submission, and
`assert stash.wait_for_job(...)`; the sole handler is
`except requests.RequestException`, so only that class is caught (in
particular an `AssertionError` from the failed `assert` escapes `main`);
then metadata generation. -/
def runAiAndGenerate (oc : PipelineOutcomes) : List SubStage × Option PyExc :=
  match oc.aiProbe with
  | some PyExc.requestException =>
    let g := runGenerate oc
    (SubStage.aiProbe :: g.1, g.2)
  | some e => ([SubStage.aiProbe], some e)
  | none =>
    match oc.aiWait with
    | some PyExc.requestException =>
      let g := runGenerate oc
      (SubStage.aiProbe :: SubStage.aiWait :: g.1, g.2)
    | some e => ([SubStage.aiProbe, SubStage.aiWait], some e)
    | none =>
      let g := runGenerate oc
      (SubStage.aiProbe :: SubStage.aiWait :: g.1, g.2)

/-- Lines 473–489: the tagging sweep.  The `find_scenes` query (lines
473–477) is outside any `try`, so its exception escapes; the batch tag
update (executed when some scenes lack the tag) is wrapped in
`except Exception`, which catches everything. -/
def runTagSweepAndRest (oc : PipelineOutcomes) (hasNonAiTagged : Bool) :
    List SubStage × Option PyExc :=
  match oc.tagQuery with
  | some e => ([SubStage.tagQuery], some e)
  | none =>
    if hasNonAiTagged then
      let r := runAiAndGenerate oc
      (SubStage.tagQuery :: SubStage.tagUpdate :: r.1, r.2)
    else
      let r := runAiAndGenerate oc
      (SubStage.tagQuery :: r.1, r.2)

/-- Lines 454–471: the identify block, entered only when the filtered
candidate list is nonempty.  The `assert stash.wait_for_job(...)` (lines
458–460) is outside any `try`, so its exception escapes; so is the
post-identify `find_scenes` re-query that recomputes the still-unorganized
candidates (lines 461–465); only the shunned-file write (lines 466–471) is
wrapped in a `try`, whose sole handler is `except OSError`. -/
def runIdentifyAndRest (oc : PipelineOutcomes)
    (effCandidates hasNonAiTagged : Bool) : List SubStage × Option PyExc :=
  if effCandidates then
    match oc.identifyWait with
    | some e => ([SubStage.identifyWait], some e)
    | none =>
      match oc.identifyRequery with
      | some e => ([SubStage.identifyWait, SubStage.identifyRequery], some e)
      | none =>
        match oc.shunnedWrite with
        | some PyExc.osError =>
          let r := runTagSweepAndRest oc hasNonAiTagged
          (SubStage.identifyWait :: SubStage.identifyRequery ::
            SubStage.shunnedWrite :: r.1, r.2)
        | some e => ([SubStage.identifyWait, SubStage.identifyRequery,
            SubStage.shunnedWrite], some e)
        | none =>
          let r := runTagSweepAndRest oc hasNonAiTagged
          (SubStage.identifyWait :: SubStage.identifyRequery ::
            SubStage.shunnedWrite :: r.1, r.2)
  else
    runTagSweepAndRest oc hasNonAiTagged

/-- The post-scan pipeline of `main` (lines 431–505) as the pair
(steps attempted in order, escaping exception if any).  `del_duplicates_main`
(line 431) is outside any `try`; the unorganized query (lines 434–442) is
wrapped in `except Exception` and on failure leaves the candidate list empty
(`unorganized_scene_ids = []`), which also skips the identify block; the
`shunned_scenes.json` read (lines 445–447) runs next — only when the file
exists (`os.path.isfile`, line 445, abstracted by `shunnedFileExists`) — and
is outside any `try`, so its exception (e.g. a `json.load` decode error)
escapes `main`.  `hasCandidates` abstracts whether the filtered unorganized
list is nonempty when the query succeeds; `hasNonAiTagged` whether any scene
lacks the `AI_Tagged` tag. -/
def runPostScan (oc : PipelineOutcomes)
    (shunnedFileExists hasCandidates hasNonAiTagged : Bool) :
    List SubStage × Option PyExc :=
  match oc.dupPrune with
  | some e => ([SubStage.dupPrune], some e)
  | none =>
    let effCandidates := hasCandidates && (oc.fetchUnorganized == none)
    if shunnedFileExists then
      match oc.shunnedRead with
      | some e =>
        ([SubStage.dupPrune, SubStage.fetchUnorganized, SubStage.shunnedRead],
          some e)
      | none =>
        let r := runIdentifyAndRest oc effCandidates hasNonAiTagged
        (SubStage.dupPrune :: SubStage.fetchUnorganized ::
          SubStage.shunnedRead :: r.1, r.2)
    else
      let r := runIdentifyAndRest oc effCandidates hasNonAiTagged
      (SubStage.dupPrune :: SubStage.fetchUnorganized :: r.1, r.2)

/-- C3 (counterexample): an execution in which exactly one stage — duplicate
pruning — raises (any non-`RequestException`, e.g. a generic error), yet none
of the subsequent stages is attempted: `del_duplicates_main()` on line 431 is
called outside any `try`, so its exception escapes `main` immediately.  This
refutes "each stage is independently guarded, so every subsequent stage is
still attempted". -/
theorem postScan_not_independently_guarded :
    runPostScan
      ⟨some PyExc.otherError, none, none, none, none, none, none, none, none,
        none, none⟩
      true true true = ([SubStage.dupPrune], some PyExc.otherError) ∧
    SubStage.generate ∉
      (runPostScan
        ⟨some PyExc.otherError, none, none, none, none, none, none, none,
          none, none, none⟩
        true true true).1 ∧
    SubStage.identifyWait ∉
      (runPostScan
        ⟨some PyExc.otherError, none, none, none, none, none, none, none,
          none, none, none⟩
        true true true).1 ∧
    SubStage.tagQuery ∉
      (runPostScan
        ⟨some PyExc.otherError, none, none, none, none, none, none, none,
          none, none, none⟩
        true true true).1 := by
  refine ⟨rfl, ?_, ?_, ?_⟩ <;> decide

/-- C3 (amended): only part of the post-scan pipeline is guarded.  (a) A
failure of the unorganized query or of the batch tag update (caught by
`except Exception`), an `OSError` from the shunned-file write, and a
`RequestException` anywhere in the AI block never prevent the final
metadata-generation stage from being attempted, provided the unguarded steps
succeed (in particular the shunned-file read either succeeds or is skipped
because the file is absent, and the post-identify re-query succeeds).
(b) An exception in duplicate pruning aborts everything after it.  (c) An
exception in the identify-job wait aborts everything after it.  (d) An
exception in the tagging-sweep query aborts everything after it.  (e) A
non-`RequestException` in the AI wait (e.g. the `AssertionError` of a failed
`assert`) escapes and metadata generation is not attempted.  (f) An exception
in the `shunned_scenes.json` read (outside any `try`) aborts everything after
it.  (g) An exception in the post-identify `find_scenes` re-query (outside
the `OSError` handler) aborts everything after it. -/
theorem postScan_guard_structure :
    (∀ (oc : PipelineOutcomes) (sfe hc hn : Bool),
      oc.dupPrune = none →
      (sfe = false ∨ oc.shunnedRead = none) →
      oc.identifyWait = none → oc.identifyRequery = none →
      (oc.shunnedWrite = none ∨ oc.shunnedWrite = some PyExc.osError) →
      oc.tagQuery = none →
      (oc.aiProbe = none ∨ oc.aiProbe = some PyExc.requestException) →
      (oc.aiProbe = some PyExc.requestException ∨ oc.aiWait = none ∨
        oc.aiWait = some PyExc.requestException) →
      SubStage.generate ∈ (runPostScan oc sfe hc hn).1) ∧
    (∀ (oc : PipelineOutcomes) (sfe hc hn : Bool) (e : PyExc),
      oc.dupPrune = some e →
      runPostScan oc sfe hc hn = ([SubStage.dupPrune], some e)) ∧
    (∀ (oc : PipelineOutcomes) (hn : Bool) (e : PyExc),
      oc.dupPrune = none → oc.fetchUnorganized = none →
      oc.identifyWait = some e →
      runPostScan oc false true hn =
        ([SubStage.dupPrune, SubStage.fetchUnorganized, SubStage.identifyWait],
          some e)) ∧
    (∀ (oc : PipelineOutcomes) (sfe hc hn : Bool) (e : PyExc),
      oc.dupPrune = none → (sfe = false ∨ oc.shunnedRead = none) →
      oc.identifyWait = none → oc.identifyRequery = none →
      oc.shunnedWrite = none → oc.tagQuery = some e →
      (runPostScan oc sfe hc hn).2 = some e ∧
      SubStage.generate ∉ (runPostScan oc sfe hc hn).1) ∧
    (∀ (oc : PipelineOutcomes) (sfe hc hn : Bool),
      oc.dupPrune = none → (sfe = false ∨ oc.shunnedRead = none) →
      oc.identifyWait = none → oc.identifyRequery = none →
      oc.shunnedWrite = none → oc.tagQuery = none → oc.aiProbe = none →
      oc.aiWait = some PyExc.assertionError →
      (runPostScan oc sfe hc hn).2 = some PyExc.assertionError ∧
      SubStage.generate ∉ (runPostScan oc sfe hc hn).1) ∧
    (∀ (oc : PipelineOutcomes) (hc hn : Bool) (e : PyExc),
      oc.dupPrune = none → oc.shunnedRead = some e →
      runPostScan oc true hc hn =
        ([SubStage.dupPrune, SubStage.fetchUnorganized, SubStage.shunnedRead],
          some e)) ∧
    (∀ (oc : PipelineOutcomes) (hn : Bool) (e : PyExc),
      oc.dupPrune = none → oc.fetchUnorganized = none →
      oc.identifyWait = none → oc.identifyRequery = some e →
      runPostScan oc false true hn =
        ([SubStage.dupPrune, SubStage.fetchUnorganized, SubStage.identifyWait,
          SubStage.identifyRequery], some e)) := by
  refine ⟨?_, ?_, ?_, ?_, ?_, ?_, ?_⟩
  · rintro ⟨d, f, sr, iw, irq, sw, tq, tu, ap, aw, g⟩ sfe hc hn hd hsr hiw
      hirq hsw htq hap haw
    simp only at hd hiw hirq htq
    subst hd
    subst hiw
    subst hirq
    subst htq
    have hsw' : sw = none ∨ sw = some PyExc.osError := by simpa using hsw
    have hap' : ap = none ∨ ap = some PyExc.requestException := by
      simpa using hap
    have haw' : ap = some PyExc.requestException ∨ aw = none ∨
        aw = some PyExc.requestException := by simpa using haw
    have hsr' : sfe = false ∨ sr = none := by simpa using hsr
    rcases hap' with rfl | rfl
    · have haw'' : aw = none ∨ aw = some PyExc.requestException := by
        rcases haw' with h | h | h
        · exact absurd h (by simp)
        · exact Or.inl h
        · exact Or.inr h
      rcases hsr' with rfl | rfl
      · rcases hsw' with rfl | rfl <;> rcases haw'' with rfl | rfl <;>
          cases f <;> cases hc <;> cases hn <;>
            simp [runPostScan, runIdentifyAndRest, runTagSweepAndRest,
              runAiAndGenerate, runGenerate]
      · rcases hsw' with rfl | rfl <;> rcases haw'' with rfl | rfl <;>
          cases sfe <;> cases f <;> cases hc <;> cases hn <;>
            simp [runPostScan, runIdentifyAndRest, runTagSweepAndRest,
              runAiAndGenerate, runGenerate]
    · rcases hsr' with rfl | rfl
      · rcases hsw' with rfl | rfl <;>
          cases f <;> cases hc <;> cases hn <;>
            simp [runPostScan, runIdentifyAndRest, runTagSweepAndRest,
              runAiAndGenerate, runGenerate]
      · rcases hsw' with rfl | rfl <;>
          cases sfe <;> cases f <;> cases hc <;> cases hn <;>
            simp [runPostScan, runIdentifyAndRest, runTagSweepAndRest,
              runAiAndGenerate, runGenerate]
  · rintro ⟨d, f, sr, iw, irq, sw, tq, tu, ap, aw, g⟩ sfe hc hn e hd
    simp only at hd
    subst hd
    rfl
  · rintro ⟨d, f, sr, iw, irq, sw, tq, tu, ap, aw, g⟩ hn e hd hf hiw
    simp only at hd hf hiw
    subst hd
    subst hf
    subst hiw
    rfl
  · rintro ⟨d, f, sr, iw, irq, sw, tq, tu, ap, aw, g⟩ sfe hc hn e hd hsr hiw
      hirq hsw htq
    simp only at hd hiw hirq hsw htq
    subst hd
    subst hiw
    subst hirq
    subst hsw
    subst htq
    have hsr' : sfe = false ∨ sr = none := by simpa using hsr
    rcases hsr' with rfl | rfl
    · cases hf : f <;> cases hc <;> cases hn <;>
        simp [runPostScan, runIdentifyAndRest, runTagSweepAndRest,
          runAiAndGenerate, runGenerate]
    · cases sfe <;> cases hf : f <;> cases hc <;> cases hn <;>
        simp [runPostScan, runIdentifyAndRest, runTagSweepAndRest,
          runAiAndGenerate, runGenerate]
  · rintro ⟨d, f, sr, iw, irq, sw, tq, tu, ap, aw, g⟩ sfe hc hn hd hsr hiw
      hirq hsw htq hap haw
    simp only at hd hiw hirq hsw htq hap haw
    subst hd
    subst hiw
    subst hirq
    subst hsw
    subst htq
    subst hap
    subst haw
    have hsr' : sfe = false ∨ sr = none := by simpa using hsr
    rcases hsr' with rfl | rfl
    · cases hf : f <;> cases hc <;> cases hn <;>
        simp [runPostScan, runIdentifyAndRest, runTagSweepAndRest,
          runAiAndGenerate, runGenerate]
    · cases sfe <;> cases hf : f <;> cases hc <;> cases hn <;>
        simp [runPostScan, runIdentifyAndRest, runTagSweepAndRest,
          runAiAndGenerate, runGenerate]
  · rintro ⟨d, f, sr, iw, irq, sw, tq, tu, ap, aw, g⟩ hc hn e hd hsr
    simp only at hd hsr
    subst hd
    subst hsr
    rfl
  · rintro ⟨d, f, sr, iw, irq, sw, tq, tu, ap, aw, g⟩ hn e hd hf hiw hirq
    simp only at hd hf hiw hirq
    subst hd
    subst hf
    subst hiw
    subst hirq
    rfl

/-- Witness for `postScan_guard_structure`, part (a), at the all-successful
concrete execution (shunned file present, its read succeeding): metadata
generation is attempted. -/
theorem postScan_guard_structure_witness :
    SubStage.generate ∈
      (runPostScan
        ⟨none, none, none, none, none, none, none, none, none, none, none⟩
        true true true).1 :=
  postScan_guard_structure.1
    ⟨none, none, none, none, none, none, none, none, none, none, none⟩
    true true true
    rfl (Or.inr rfl) rfl rfl (Or.inl rfl) rfl (Or.inl rfl)
    (Or.inr (Or.inl rfl))

/-- Python truthiness of a `wait_for_job` return value: `None` and `False`
are falsy, `True` is truthy. -/
def pyTruthy : Option Bool → Bool
  | some b => b
  | none => false

/-- Line 430 (`assert stash.wait_for_job(scan_job)`) composed with the
post-scan pipeline: a falsy wait result raises `AssertionError` before any
post-scan step runs. -/
def mainScanGateAndPipeline (waitResult : Option Bool) (oc : PipelineOutcomes)
    (shunnedFileExists hasCandidates hasNonAiTagged : Bool) :
    List SubStage × Option PyExc :=
  if pyTruthy waitResult then
    runPostScan oc shunnedFileExists hasCandidates hasNonAiTagged
  else ([], some PyExc.assertionError)

/-- C10: if the polls before `n` are noncommittal and at poll `n` (before the
deadline) the job lookup returns no job, `wait_for_job` returns `None`
immediately; `None` is falsy, so the `assert` on the scan wait raises
`AssertionError` and no post-scan pipeline step is attempted — a vanished job
aborts the invocation just like a failed scan. -/
theorem wait_for_job_vanished_aborts (find : Nat → Option String)
    (dur : Nat → Nat) (target : String) (period timeout n : Nat)
    (oc : PipelineOutcomes) (sfe hc hn : Bool) (hp : 0 < period)
    (hlt : pollTime dur period n < timeout)
    (hpre : ∀ i, i < n → ∃ st, find i = some st ∧ noncommittal target st)
    (hnone : find n = none) :
    waitForJob find dur target period timeout =
      some (WaitOutcome.result none) ∧
    mainScanGateAndPipeline none oc sfe hc hn =
      ([], some PyExc.assertionError) ∧
    ∀ s : SubStage, s ∉ (mainScanGateAndPipeline none oc sfe hc hn).1 := by
  refine ⟨?_, rfl, ?_⟩
  · have h := waitForJobLoop_vanished find dur target period timeout hp n hlt
      hnone (timeout + 1) 0 (by simp [pollTime]) (Nat.zero_le n)
      (fun i _ hi2 => hpre i hi2)
    simpa [waitForJob, pollTime] using h
  · intro s
    simp [mainScanGateAndPipeline, pyTruthy]

/-- Witness for `wait_for_job_vanished_aborts`: the job vanishes at the very
first poll (the lookup always returns no job), period `15`, timeout
`120000`, an otherwise all-successful pipeline. -/
theorem wait_for_job_vanished_aborts_witness :
    0 < 15 ∧
    pollTime (fun _ => 0) 15 0 < 120000 ∧
    waitForJob (fun _ => none) (fun _ => 0) "FINISHED" 15 120000 =
      some (WaitOutcome.result none) ∧
    mainScanGateAndPipeline none
        ⟨none, none, none, none, none, none, none, none, none, none, none⟩
        true true true =
      ([], some PyExc.assertionError) := by
  have h := wait_for_job_vanished_aborts (fun _ => none) (fun _ => 0)
    "FINISHED" 15 120000 0
    ⟨none, none, none, none, none, none, none, none, none, none, none⟩
    true true true
    (by decide) (by decide) (fun i hi => absurd hi (by omega)) rfl
  exact ⟨by decide, by decide, h.1, h.2.1⟩
